import Mathlib

set_option maxHeartbeats 1000000

/-!
Shallow embedding of the audio transcription and compliance analyzer backend
(file backend/main.py).  Python strings are modelled as lists of characters,
waveform sample arrays as lists of rationals, and the remote services
(speech model, credential exchange, WatsonX chat endpoint) as explicit
oracles passed to the embedded functions.
-/

/-- Python strings are modelled as lists of characters. -/
abbrev PyStr := List Char

/-- The whitespace class used by Python's str.split() / str.strip(),
restricted to the ASCII whitespace characters. -/
def isWS (c : Char) : Bool := c = ' ' || c = '\t' || c = '\n' || c = '\r'

/-- Python s.strip(): remove leading and trailing whitespace. -/
def strip (s : PyStr) : PyStr :=
  ((s.dropWhile isWS).reverse.dropWhile isWS).reverse

/-- Worker for pySplit: scans the characters, accumulating the current word
(in reverse) and emitting maximal runs of non-whitespace characters. -/
def pyWordsGo : PyStr → PyStr → List PyStr
  | [], acc => if acc.isEmpty then [] else [acc.reverse]
  | c :: rest, acc =>
    if isWS c then
      if acc.isEmpty then pyWordsGo rest [] else acc.reverse :: pyWordsGo rest []
    else pyWordsGo rest (c :: acc)

/-- Python s.split() with no argument: split on whitespace runs, dropping
empty pieces. -/
def pySplit (s : PyStr) : List PyStr := pyWordsGo s []

/-- Python " ".join(words). -/
def joinWords (ws : List PyStr) : PyStr := List.intercalate ([' ']) ws

/-- The inner loop of clean_combined_transcription (main.py lines 442-445):
for overlap_len counting down from the cap, return the first (largest)
overlap_len such that the last overlap_len words of the combined text equal
the first overlap_len words of the next transcription, and 0 if none. -/
def findOverlap (cw nw : List PyStr) : Nat → Nat
  | 0 => 0
  | k + 1 =>
    if cw.drop (cw.length - (k + 1)) = nw.take (k + 1) then k + 1
    else findOverlap cw nw k

/-- One iteration of the merge loop of clean_combined_transcription
(main.py lines 434-450). -/
def mergeStep (combined current : PyStr) : PyStr :=
  let cw := pySplit combined
  let nw := pySplit current
  let ov := findOverlap cw nw (min 10 (min cw.length nw.length))
  if 0 < ov then combined ++ ' ' :: joinWords (nw.drop ov)
  else combined ++ ' ' :: current

/-- clean_combined_transcription (main.py lines 422-452): the overlap
reconciler.  An empty input yields the empty string, a singleton input is
returned unchanged, and otherwise the transcripts are folded with mergeStep
and the result is stripped. -/
def clean_combined_transcription : List PyStr → PyStr
  | [] => []
  | [t] => t
  | t :: rest => strip (rest.foldl mergeStep t)

/-- The chunking while-loop of transcribe_long_audio (main.py lines 303-315)
and transcribe_very_long_audio (lines 365-377), recorded as the list of
(start, end) sample ranges it emits.  cs is chunk_samples, ov is
overlap_samples, len is len(audio_array).  The loop terminates because start
strictly increases whenever ov < cs; the fuel argument is an upper bound on
the number of iterations and chunkRanges supplies a sufficient amount. -/
def chunkRangesGo (cs ov len : Nat) : Nat → Nat → List (Nat × Nat)
  | 0, _ => []
  | fuel + 1, start =>
    if start < len then
      if len ≤ min (start + cs) len then
        [(start, min (start + cs) len)]
      else
        (start, min (start + cs) len) ::
          chunkRangesGo cs ov len fuel (min (start + cs) len - ov)
    else []

/-- The full sequence of chunk ranges emitted by the chunking loop. -/
def chunkRanges (cs ov len : Nat) : List (Nat × Nat) :=
  chunkRangesGo cs ov len len 0

/-- The relation between consecutive chunk ranges established by the loop:
the next chunk starts strictly later, inside the previous chunk, ends
strictly later, and overlaps the previous chunk by exactly ov samples. -/
def chunkRel (ov : Nat) (p q : Nat × Nat) : Prop :=
  p.1 < q.1 ∧ q.1 < p.2 ∧ p.2 < q.2 ∧ q.1 + ov = p.2

/-- The materialized chunk for one range (main.py lines 306-309):
the slice audio_array[start:end], right-padded with zeros to cs samples
when it is shorter than cs and does not start at sample 0. -/
def chunkOfRange (cs : Nat) (w : List ℚ) (p : Nat × Nat) : List ℚ :=
  let c := (w.drop p.1).take (p.2 - p.1)
  if c.length < cs ∧ 0 < p.1 then c ++ List.replicate (cs - c.length) 0 else c

/-- The list of materialized chunks fed to the model by the chunking loop. -/
def chunkList (cs ov : Nat) (w : List ℚ) : List (List ℚ) :=
  (chunkRanges cs ov w.length).map (chunkOfRange cs w)

/-- HTTPException as raised throughout main.py: an HTTP status code plus a
detail string. -/
structure HTTPError where
  status : Nat
  detail : PyStr
deriving DecidableEq

/-- The duration-based segmentation tier of transcribe_audio_file
(main.py lines 246-251). -/
inductive Tier
  | SHORT
  | LONG
  | VERY_LONG
deriving DecidableEq

/-- duration = len(audio_array) / sampling_rate with sampling_rate = 16000
(main.py line 240); preprocess_audio always returns 16000. -/
def durationOf (len : Nat) : ℚ := (len : ℚ) / 16000

/-- The tier dispatch of transcribe_audio_file (main.py lines 246-251):
duration > 600 is VERY_LONG, duration > 30 is LONG, otherwise SHORT. -/
def selectTier (len : Nat) : Tier :=
  if 600 < durationOf len then .VERY_LONG
  else if 30 < durationOf len then .LONG
  else .SHORT

/-- transcribe_short_audio (main.py lines 265-291): the speech model is
invoked once on the whole waveform; its output is stripped; a model failure
becomes an HTTPException 500.  The opaque speech model is an oracle from
waveforms to an optional transcript (none meaning the model raised). -/
def transcribe_short_audio (oracle : List ℚ → Option PyStr) (w : List ℚ) :
    Except HTTPError PyStr :=
  match oracle w with
  | some t => .ok (strip t)
  | none => .error ⟨500, ("Short audio transcription failed").toList⟩

/-- The per-chunk body of the transcription loops (main.py lines 319-344 and
383-411): a chunk contributes its stripped transcript when the model call
succeeds and the stripped transcript is non-empty, and nothing otherwise. -/
def segResult (oracle : List ℚ → Option PyStr) (c : List ℚ) : Option PyStr :=
  match oracle c with
  | none => none
  | some t => if strip t = [] then none else some (strip t)

/-- Detail string of the failure raised when no chunk produced a result. -/
def noSuccessMsg : PyStr := ("No successful chunk transcriptions").toList

/-- The common body of transcribe_long_audio and transcribe_very_long_audio:
chunk the waveform, collect the surviving per-chunk transcripts in order,
fail with HTTP 500 when none survived, and otherwise reconcile. -/
def transcribe_chunked (cs ov : Nat) (oracle : List ℚ → Option PyStr)
    (w : List ℚ) : Except HTTPError PyStr :=
  let survivors := (chunkList cs ov w).filterMap (segResult oracle)
  if survivors = [] then .error ⟨500, noSuccessMsg⟩
  else .ok (clean_combined_transcription survivors)

/-- transcribe_long_audio (main.py lines 293-353): 30-second chunks with a
2-second overlap, at sampling rate sr. -/
def transcribe_long_audio (sr : Nat) (oracle : List ℚ → Option PyStr)
    (w : List ℚ) : Except HTTPError PyStr :=
  transcribe_chunked (30 * sr) (2 * sr) oracle w

/-- transcribe_very_long_audio (main.py lines 355-420): 20-second chunks with
a 1-second overlap, at sampling rate sr. -/
def transcribe_very_long_audio (sr : Nat) (oracle : List ℚ → Option PyStr)
    (w : List ℚ) : Except HTTPError PyStr :=
  transcribe_chunked (20 * sr) (1 * sr) oracle w

/-- The list of waveforms handed to the speech model under each tier: the
SHORT path feeds the whole waveform once, the chunked paths feed their
chunk lists. -/
def modelInputs (w : List ℚ) : List (List ℚ) :=
  match selectTier w.length with
  | .SHORT => [w]
  | .LONG => chunkList (30 * 16000) (2 * 16000) w
  | .VERY_LONG => chunkList (20 * 16000) (1 * 16000) w

/-- The tier dispatch of transcribe_audio_file (main.py lines 246-251)
after preprocessing produced waveform w at 16000 Hz. -/
def transcribe_audio (oracle : List ℚ → Option PyStr) (w : List ℚ) :
    Except HTTPError PyStr :=
  match selectTier w.length with
  | .SHORT => transcribe_short_audio oracle w
  | .LONG => transcribe_long_audio 16000 oracle w
  | .VERY_LONG => transcribe_very_long_audio 16000 oracle w

/-- Indexed survivors of a chunk batch: each surviving chunk's original
index (from enumerate) paired with its contributed transcript. -/
def survivorsIdx (oracle : List ℚ → Option PyStr) (chunks : List (List ℚ)) :
    List (Nat × PyStr) :=
  chunks.enum.filterMap (fun p => (segResult oracle p.2).map (fun t => (p.1, t)))

/-- The process-wide access_token_cache (main.py lines 44-47): an optional
token and an absolute expiry timestamp.  Timestamps are modelled as
rationals. -/
structure TokenCache where
  token : Option PyStr
  expiry : ℚ
deriving DecidableEq

/-- Python truthiness of an optional string: None and the empty string are
falsy. -/
def truthy : Option PyStr → Bool
  | none => false
  | some s => !s.isEmpty

/-- Outcome of the credential-exchange POST to the IAM endpoint
(main.py lines 102-107): a network-level failure, a non-2xx response (which
raise_for_status turns into an exception), or a 2xx response carrying an
optional access_token field and an optional expires_in field. -/
inductive ExchangeOutcome
  | netErr
  | non2xx
  | ok2xx (access_token : Option PyStr) (expires_in : Option ℚ)
deriving DecidableEq

/-- get_access_token (main.py lines 77-121).  Inputs: the force_refresh
flag, the current time, the outcome the network would deliver if the
exchange is performed, and the cache state.  Output: either an exception
(HTTPException 500, modelled as Except.error) or the returned optional
token, together with the new cache state and whether a network exchange was
performed. -/
def get_access_token (force_refresh : Bool) (now : ℚ) (resp : ExchangeOutcome)
    (cache : TokenCache) : Except Unit (Option PyStr) × TokenCache × Bool :=
  if force_refresh = false ∧ truthy cache.token = true ∧ now < cache.expiry then
    (.ok cache.token, cache, false)
  else
    match resp with
    | .netErr => (.error (), cache, true)
    | .non2xx => (.error (), cache, true)
    | .ok2xx tok expiresIn =>
      let ei := expiresIn.getD 3600
      if truthy tok = true then (.ok tok, ⟨tok, now + ei - 300⟩, true)
      else (.ok none, cache, true)

/-- Outcome of one POST to the WatsonX endpoint (main.py lines 143-149):
either an HTTP response with a status code and body text, or a
requests-level exception. -/
inductive WXOutcome
  | http (status : Nat) (body : PyStr)
  | netExc
deriving DecidableEq

/-- The environment of one make_watsonx_request call: for each attempt
index, the outcome of the credential exchange (if one is performed), the
outcome of the WatsonX POST (if one is performed), and the current time. -/
structure WXEnv where
  exch : Nat → ExchangeOutcome
  wx : Nat → WXOutcome
  now : Nat → ℚ

/-- Result of a make_watsonx_request run: the returned body (ok some), the
Python None fallthrough (ok none), or the raised HTTPException; plus the
final cache state, the number of credential exchanges performed and the
number of WatsonX POSTs performed. -/
structure WXRun where
  result : Except HTTPError (Option PyStr)
  cache : TokenCache
  exchanges : Nat
  posts : Nat

/-- Detail string of HTTPException 500 raised when get_access_token raised. -/
def tokenErrMsg : PyStr := ("Error getting access token").toList

/-- Detail string of HTTPException 500 raised when no token was obtained. -/
def obtainErrMsg : PyStr := ("Failed to obtain access token").toList

/-- Detail string of HTTPException 500 raised after network retries ran out. -/
def connErrMsg : PyStr := ("Failed to connect to WatsonX API").toList

/-- Detail string of the WatsonX API error, carrying the response body. -/
def wxErrDetail (body : PyStr) : PyStr := ("WatsonX API Error: ").toList ++ body

/-- The attempt loop of make_watsonx_request (main.py lines 127-176).
fuel counts the attempts still allowed (maxRetries + 1 - attempt); when it
reaches 0, the for loop has ended and the function returns None.  Each
attempt fetches a token (forced from attempt 1 on), fails the whole call if
the fetch raised or produced no token, then POSTs: 200 returns the body,
401 with attempts remaining clears the cache and retries, any other status
raises immediately with that status and body, and a network exception
sleeps and retries unless this was the last attempt. -/
def wxGo (env : WXEnv) (maxRetries : Nat) : Nat → Nat → TokenCache → WXRun
  | 0, _, cache => ⟨.ok none, cache, 0, 0⟩
  | fuel + 1, attempt, cache =>
    match get_access_token (decide (0 < attempt)) (env.now attempt)
        (env.exch attempt) cache with
    | (.error _, cache2, ex) =>
      ⟨.error ⟨500, tokenErrMsg⟩, cache2, if ex then 1 else 0, 0⟩
    | (.ok tok, cache2, ex) =>
      if truthy tok = true then
        match env.wx attempt with
        | .http status body =>
          if status = 200 then
            ⟨.ok (some body), cache2, if ex then 1 else 0, 1⟩
          else if status = 401 ∧ attempt < maxRetries then
            let r := wxGo env maxRetries fuel (attempt + 1) ⟨none, 0⟩
            ⟨r.result, r.cache, (if ex then 1 else 0) + r.exchanges, 1 + r.posts⟩
          else ⟨.error ⟨status, wxErrDetail body⟩, cache2, if ex then 1 else 0, 1⟩
        | .netExc =>
          if attempt = maxRetries then
            ⟨.error ⟨500, connErrMsg⟩, cache2, if ex then 1 else 0, 1⟩
          else
            let r := wxGo env maxRetries fuel (attempt + 1) cache2
            ⟨r.result, r.cache, (if ex then 1 else 0) + r.exchanges, 1 + r.posts⟩
      else ⟨.error ⟨500, obtainErrMsg⟩, cache2, if ex then 1 else 0, 0⟩

/-- make_watsonx_request (main.py lines 123-176) with its default
max_retries = 2: up to 3 attempts starting from attempt 0. -/
def make_watsonx_request (env : WXEnv) (cache : TokenCache) : WXRun :=
  wxGo env 2 3 0 cache

/-- Python filename.lower(): per-character lowercasing. -/
def pyLower (s : PyStr) : PyStr := s.map Char.toLower

/-- Python s.endswith(suf): the last len(suf) characters equal suf. -/
def pyEndsWith (s suf : PyStr) : Bool :=
  decide (s.drop (s.length - suf.length) = suf)

/-- Detail string of the HTTP 400 rejection for non-MP3 filenames. -/
def onlyMp3Msg : PyStr := ("Only MP3 files are supported").toList

/-- Which processing stages of a transcription request were reached. -/
structure PipelineTrace where
  sizeChecked : Bool
  decodeAttempted : Bool
  modelInvoked : Bool
deriving DecidableEq

/-- transcribe_audio_file (main.py lines 215-263): checks the 100MB size
ceiling, then decodes/preprocesses (the outcome of which is an input,
error meaning preprocess_audio raised), then dispatches on the tier.  The
trace records which stages were reached. -/
def transcribe_audio_file_model (size : Nat) (decode : Except Unit (List ℚ))
    (oracle : List ℚ → Option PyStr) : Except HTTPError PyStr × PipelineTrace :=
  if 100 * 1024 * 1024 < size then
    (.error ⟨413, ("File too large").toList⟩, ⟨true, false, false⟩)
  else
    match decode with
    | .error _ => (.error ⟨500, ("Error preprocessing audio").toList⟩,
        ⟨true, true, false⟩)
    | .ok w => (transcribe_audio oracle w, ⟨true, true, true⟩)

/-- The /transcribe endpoint (main.py lines 480-499): rejects non-.mp3
filenames (case-insensitively) with HTTP 400 before anything else runs. -/
def transcribe_audio_endpoint (filename : PyStr) (size : Nat)
    (decode : Except Unit (List ℚ)) (oracle : List ℚ → Option PyStr) :
    Except HTTPError PyStr × PipelineTrace :=
  if pyEndsWith (pyLower filename) ((".mp3").toList) = false then
    (.error ⟨400, onlyMp3Msg⟩, ⟨false, false, false⟩)
  else transcribe_audio_file_model size decode oracle

/-- The /analyze endpoint (main.py lines 712-747): rejects non-.mp3
filenames with HTTP 400, then requires API_KEY, then transcribes, then
calls intent recognition, then resolution generation; each failure aborts
the rest.  The two trailing booleans record whether the intent call and the
resolution call were attempted. -/
def full_analysis_endpoint (filename : PyStr) (apiKey : Option PyStr)
    (size : Nat) (decode : Except Unit (List ℚ))
    (oracle : List ℚ → Option PyStr)
    (intentCall : PyStr → Except HTTPError PyStr)
    (resolCall : PyStr → PyStr → Except HTTPError PyStr) :
    Except HTTPError (PyStr × PyStr × PyStr) × PipelineTrace × Bool × Bool :=
  if pyEndsWith (pyLower filename) ((".mp3").toList) = false then
    (.error ⟨400, onlyMp3Msg⟩, ⟨false, false, false⟩, false, false)
  else if truthy apiKey = false then
    (.error ⟨500, ("API_KEY not found in environment variables").toList⟩,
      ⟨false, false, false⟩, false, false)
  else
    match transcribe_audio_file_model size decode oracle with
    | (.error e, tr) => (.error e, tr, false, false)
    | (.ok t, tr) =>
      match intentCall t with
      | .error e => (.error e, tr, true, false)
      | .ok i =>
        match resolCall t i with
        | .error e => (.error e, tr, true, true)
        | .ok r => (.ok (t, i, r), tr, true, true)

/-! ### Helper lemmas -/

theorem dropWhile_idem (p : Char → Bool) (l : List Char) :
    (l.dropWhile p).dropWhile p = l.dropWhile p := by
  induction l with
  | nil => rfl
  | cons c t ih =>
    by_cases h : p c
    · simp [List.dropWhile_cons, h, ih]
    · simp [List.dropWhile_cons, h]

theorem dropWhile_fix_head (p : Char → Bool) (c : Char) (t : List Char)
    (h : List.dropWhile p (c :: t) = c :: t) : p c = false := by
  by_cases hp : p c
  · exfalso
    rw [List.dropWhile_cons_of_pos hp] at h
    have hlen := congrArg List.length (List.takeWhile_append_dropWhile (p := p) (l := t))
    simp only [List.length_append] at hlen
    have := congrArg List.length h
    simp only [List.length_cons] at this
    omega
  · simpa using hp

theorem strip_idem (s : PyStr) : strip (strip s) = strip s := by
  have key : ∀ l : PyStr, l.dropWhile isWS = l →
      ((l.reverse.dropWhile isWS).reverse).dropWhile isWS =
        (l.reverse.dropWhile isWS).reverse := by
    intro l hl
    have hsplit := List.takeWhile_append_dropWhile (p := isWS) (l := l.reverse)
    cases hrv : (l.reverse.dropWhile isWS).reverse with
    | nil => simp
    | cons c t =>
      have hl2 : l = (c :: t) ++ (l.reverse.takeWhile isWS).reverse := by
        have h1 := congrArg List.reverse hsplit
        rw [List.reverse_append, List.reverse_reverse] at h1
        rw [hrv] at h1
        exact h1.symm
      have hc : isWS c = false := by
        apply dropWhile_fix_head isWS c (t ++ (l.reverse.takeWhile isWS).reverse)
        rw [← List.cons_append, ← hl2]
        exact hl
      rw [List.dropWhile_cons_of_neg (by simp [hc])]
  have hA := key (s.dropWhile isWS) (dropWhile_idem isWS s)
  show ((((((s.dropWhile isWS).reverse.dropWhile isWS).reverse).dropWhile
      isWS).reverse).dropWhile isWS).reverse = _
  rw [hA, List.reverse_reverse, dropWhile_idem]
  rfl

theorem durationOf_gt_iff (len b : Nat) :
    ((b : ℚ) < durationOf len) ↔ b * 16000 < len := by
  unfold durationOf
  rw [lt_div_iff₀ (by norm_num : (0 : ℚ) < 16000)]
  constructor
  · intro h; exact_mod_cast h
  · intro h; exact_mod_cast h

theorem selectTier_char (len : Nat) :
    selectTier len = (if 9600000 < len then Tier.VERY_LONG
      else if 480000 < len then Tier.LONG else Tier.SHORT) := by
  unfold selectTier
  have h6 : (600 < durationOf len) ↔ 9600000 < len := by
    have h := durationOf_gt_iff len 600
    norm_num at h
    exact h
  have h3 : (30 < durationOf len) ↔ 480000 < len := by
    have h := durationOf_gt_iff len 30
    norm_num at h
    exact h
  simp only [h6, h3]

theorem chunkGo_inv (cs ov len : Nat) (hov : 0 < ov) (hcs : ov < cs) :
    ∀ fuel start, start < len → len ≤ start + fuel →
      (chunkRangesGo cs ov len fuel start).head? =
          some (start, min (start + cs) len) ∧
      List.Chain' (chunkRel ov) (chunkRangesGo cs ov len fuel start) ∧
      (∀ p ∈ chunkRangesGo cs ov len fuel start, p.1 < p.2 ∧ p.2 ≤ len) ∧
      (∀ x, start ≤ x → x < len →
        ∃ p ∈ chunkRangesGo cs ov len fuel start, p.1 ≤ x ∧ x < p.2) := by
  intro fuel
  induction fuel with
  | zero => intro start h1 h2; omega
  | succ fuel ih =>
    intro start h1 h2
    rcases Nat.lt_or_ge (start + cs) len with hlt | hge
    · have hcond : ¬ len ≤ min (start + cs) len := by omega
      have hgo : chunkRangesGo cs ov len (fuel + 1) start =
          (start, min (start + cs) len) ::
            chunkRangesGo cs ov len fuel (min (start + cs) len - ov) := by
        simp only [chunkRangesGo, if_pos h1, if_neg hcond]
      have hs1 : min (start + cs) len - ov < len := by omega
      have hs2 : len ≤ (min (start + cs) len - ov) + fuel := by omega
      obtain ⟨ihH, ihC, ihB, ihV⟩ :=
        ih (min (start + cs) len - ov) hs1 hs2
      rw [hgo]
      refine ⟨rfl, ?_, ?_, ?_⟩
      · rw [List.chain'_cons']
        refine ⟨?_, ihC⟩
        intro q hq
        rw [ihH] at hq
        have hq2 : (min (start + cs) len - ov,
            min ((min (start + cs) len - ov) + cs) len) = q := by
          simpa using hq
        subst hq2
        exact ⟨by omega, by omega, by omega, by omega⟩
      · intro p hp
        rcases List.mem_cons.mp hp with hp1 | hp2
        · subst hp1; exact ⟨by omega, by omega⟩
        · exact ihB p hp2
      · intro x hx1 hx2
        by_cases hxe : x < min (start + cs) len
        · exact ⟨(start, min (start + cs) len), List.mem_cons_self _ _, hx1, hxe⟩
        · obtain ⟨p, hp, hpx⟩ := ihV x (by omega) hx2
          exact ⟨p, List.mem_cons_of_mem _ hp, hpx⟩
    · have hcond : len ≤ min (start + cs) len := by omega
      have hgo : chunkRangesGo cs ov len (fuel + 1) start =
          [(start, min (start + cs) len)] := by
        simp only [chunkRangesGo, if_pos h1, if_pos hcond]
      rw [hgo]
      refine ⟨rfl, List.chain'_singleton _, ?_, ?_⟩
      · intro p hp
        have hp1 : p = (start, min (start + cs) len) := by simpa using hp
        subst hp1
        exact ⟨by omega, by omega⟩
      · intro x hx1 hx2
        exact ⟨(start, min (start + cs) len), by simp, hx1, by omega⟩

theorem enumFrom_filterMap_map_snd (f : List ℚ → Option PyStr) :
    ∀ (l : List (List ℚ)) (n : Nat),
      ((List.enumFrom n l).filterMap
          (fun p => (segResult f p.2).map (fun t => (p.1, t)))).map Prod.snd =
        l.filterMap (segResult f) := by
  intro l
  induction l with
  | nil => intro n; rfl
  | cons a l ih =>
    intro n
    cases h : segResult f a with
    | none => simp [List.enumFrom, List.filterMap_cons, h, ih]
    | some t => simp [List.enumFrom, List.filterMap_cons, h, ih]

theorem survivorsIdx_map_snd (f : List ℚ → Option PyStr) (chunks : List (List ℚ)) :
    (survivorsIdx f chunks).map Prod.snd = chunks.filterMap (segResult f) := by
  unfold survivorsIdx List.enum
  exact enumFrom_filterMap_map_snd f chunks 0

theorem filterMap_pair_fst_sublist (f : List ℚ → Option PyStr) :
    ∀ (l : List (Nat × List ℚ)),
      List.Sublist
        ((l.filterMap (fun p => (segResult f p.2).map (fun t => (p.1, t)))).map
          Prod.fst)
        (l.map Prod.fst) := by
  intro l
  induction l with
  | nil => exact List.Sublist.refl []
  | cons a l ih =>
    cases h : segResult f a.2 with
    | none =>
      simp only [List.filterMap_cons, h, Option.map_none', List.map_cons]
      exact ih.cons a.1
    | some t =>
      simp only [List.filterMap_cons, h, Option.map_some', List.map_cons]
      exact ih.cons₂ a.1

theorem survivorsIdx_fst_mono (f : List ℚ → Option PyStr)
    (chunks : List (List ℚ)) :
    List.Pairwise (fun a b => a.1 < b.1) (survivorsIdx f chunks) := by
  have hsub := filterMap_pair_fst_sublist f chunks.enum
  rw [List.enum_map_fst] at hsub
  have hpw : List.Pairwise (fun a b => a < b)
      ((survivorsIdx f chunks).map Prod.fst) :=
    (List.pairwise_lt_range chunks.length).sublist hsub
  rw [List.pairwise_map] at hpw
  exact hpw

theorem survivorsIdx_mem (f : List ℚ → Option PyStr) (chunks : List (List ℚ)) :
    ∀ q ∈ survivorsIdx f chunks,
      ∃ c, (q.1, c) ∈ chunks.enum ∧ segResult f c = some q.2 := by
  intro q hq
  rw [survivorsIdx, List.mem_filterMap] at hq
  obtain ⟨p, hp, hmap⟩ := hq
  cases h : segResult f p.2 with
  | none => rw [h] at hmap; exact absurd hmap (by simp)
  | some t =>
    rw [h] at hmap
    simp only [Option.map_some', Option.some.injEq] at hmap
    subst hmap
    exact ⟨p.2, hp, h⟩

theorem wxGo_posts_le (env : WXEnv) (mr : Nat) :
    ∀ fuel attempt cache, (wxGo env mr fuel attempt cache).posts ≤ fuel := by
  intro fuel
  induction fuel with
  | zero => intro attempt cache; exact Nat.le_refl 0
  | succ fuel ih =>
    intro attempt cache
    simp only [wxGo]
    split
    · simp
    · split
      · split
        · split
          · simp
          · split
            · simp only
              have := ih (attempt + 1) ⟨none, 0⟩
              omega
            · simp
        · rename_i x1 tok cache2 ex heq htr x2 houtcome
          split
          · simp
          · simp only
            have := ih (attempt + 1) cache2
            omega
      · simp

theorem truthy_some_iff (t : PyStr) : truthy (some t) = true ↔ t ≠ [] := by
  cases t <;> simp [truthy]

theorem chunked_all_fail (cs ov : Nat) (oracle : List ℚ → Option PyStr)
    (w : List ℚ) (h : ∀ c ∈ chunkList cs ov w, segResult oracle c = none) :
    transcribe_chunked cs ov oracle w = .error ⟨500, noSuccessMsg⟩ := by
  unfold transcribe_chunked
  rw [if_pos (List.filterMap_eq_nil_iff.mpr h)]

theorem chunked_survivors (cs ov : Nat) (oracle : List ℚ → Option PyStr)
    (w : List ℚ)
    (h : (chunkList cs ov w).filterMap (segResult oracle) ≠ []) :
    transcribe_chunked cs ov oracle w =
      .ok (clean_combined_transcription
        ((survivorsIdx oracle (chunkList cs ov w)).map Prod.snd)) := by
  unfold transcribe_chunked
  rw [if_neg h, survivorsIdx_map_snd]

/-! ### Claim theorems -/

/-- C1: for every waveform length segmented with the LONG parameters
(30-second windows, 2-second overlap at 16000 Hz) or the VERY_LONG
parameters (20-second windows, 1-second overlap), the emitted chunk ranges
cover the interval from 0 to the waveform length with no gaps, stay inside
the waveform, and every pair of consecutive ranges overlaps by exactly the
tier's overlap_samples. -/
theorem c1_chunk_cover_and_overlap (len : Nat) (hlen : 0 < len) :
    ((∀ x, x < len →
        ∃ p ∈ chunkRanges (30 * 16000) (2 * 16000) len, p.1 ≤ x ∧ x < p.2) ∧
      List.Chain' (chunkRel (2 * 16000))
        (chunkRanges (30 * 16000) (2 * 16000) len) ∧
      ∀ p ∈ chunkRanges (30 * 16000) (2 * 16000) len, p.1 < p.2 ∧ p.2 ≤ len) ∧
    ((∀ x, x < len →
        ∃ p ∈ chunkRanges (20 * 16000) (1 * 16000) len, p.1 ≤ x ∧ x < p.2) ∧
      List.Chain' (chunkRel (1 * 16000))
        (chunkRanges (20 * 16000) (1 * 16000) len) ∧
      ∀ p ∈ chunkRanges (20 * 16000) (1 * 16000) len, p.1 < p.2 ∧ p.2 ≤ len) := by
  have hL := chunkGo_inv (30 * 16000) (2 * 16000) len (by omega) (by omega)
    len 0 hlen (by omega)
  have hV := chunkGo_inv (20 * 16000) (1 * 16000) len (by omega) (by omega)
    len 0 hlen (by omega)
  unfold chunkRanges
  exact ⟨⟨fun x hx => hL.2.2.2 x (Nat.zero_le x) hx, hL.2.1, hL.2.2.1⟩,
    ⟨fun x hx => hV.2.2.2 x (Nat.zero_le x) hx, hV.2.1, hV.2.2.1⟩⟩

theorem c1_witness :
    ∃ p ∈ chunkRanges (30 * 16000) (2 * 16000) 1000000,
      p.1 ≤ 999999 ∧ 999999 < p.2 :=
  (c1_chunk_cover_and_overlap 1000000 (by decide)).1.1 999999 (by decide)

/-- C2: the reconciler merges the two transcripts by finding the largest
token overlap (here the two tokens brown fox), and appends only the tokens
after it, producing exactly the expected merged sentence. -/
theorem c2_reconcile_overlap_example :
    clean_combined_transcription
      [("the quick brown fox").toList, ("brown fox jumps over").toList] =
      ("the quick brown fox jumps over").toList := by decide

/-- C3: the segmentation tier is a pure function of duration =
len / 16000: SHORT when duration is at most 30 seconds, LONG when it is
more than 30 and at most 600, VERY_LONG when it is more than 600; and
under the SHORT tier the model is fed exactly one segment, the whole
waveform, and the dispatch runs the short path. -/
theorem c3_tier_pure_and_short_single_segment :
    (∀ len : Nat,
      (selectTier len = Tier.SHORT ↔ durationOf len ≤ 30) ∧
      (selectTier len = Tier.LONG ↔
        30 < durationOf len ∧ durationOf len ≤ 600) ∧
      (selectTier len = Tier.VERY_LONG ↔ 600 < durationOf len)) ∧
    (∀ (w : List ℚ) (oracle : List ℚ → Option PyStr),
      selectTier w.length = Tier.SHORT →
        modelInputs w = [w] ∧
        transcribe_audio oracle w = transcribe_short_audio oracle w) := by
  constructor
  · intro len
    have h6 := durationOf_gt_iff len 600
    have h3 := durationOf_gt_iff len 30
    norm_num at h6 h3
    rw [selectTier_char len]
    by_cases hv : 9600000 < len
    · have hd6 : 600 < durationOf len := h6.mpr hv
      rw [if_pos hv]
      exact ⟨iff_of_false (by decide)
          (not_le.mpr (lt_trans (by norm_num) hd6)),
        iff_of_false (by decide) (fun h => absurd hd6 (not_lt.mpr h.2)),
        iff_of_true rfl hd6⟩
    · rw [if_neg hv]
      have hd6n : ¬ 600 < durationOf len := fun h => hv (h6.mp h)
      by_cases hl : 480000 < len
      · have hd3 : 30 < durationOf len := h3.mpr hl
        rw [if_pos hl]
        exact ⟨iff_of_false (by decide) (not_le.mpr hd3),
          iff_of_true rfl ⟨hd3, not_lt.mp hd6n⟩,
          iff_of_false (by decide) hd6n⟩
      · have hd3n : ¬ 30 < durationOf len := fun h => hl (h3.mp h)
        rw [if_neg hl]
        exact ⟨iff_of_true rfl (not_lt.mp hd3n),
          iff_of_false (by decide) (fun h => hd3n h.1),
          iff_of_false (by decide)
            (fun h => hd3n (lt_trans (by norm_num) h))⟩
  · intro w oracle h
    exact ⟨by simp [modelInputs, h], by simp [transcribe_audio, h]⟩

theorem c3_witness :
    (selectTier 480000 = Tier.SHORT ↔ durationOf 480000 ≤ 30) ∧
    modelInputs [(0 : ℚ)] = [[(0 : ℚ)]] :=
  ⟨(c3_tier_pure_and_short_single_segment.1 480000).1,
    (c3_tier_pure_and_short_single_segment.2 [(0 : ℚ)] (fun _ => none)
      (by simp [selectTier_char])).1⟩

/-- C4: with force_refresh = false, a cached non-empty token that has not
expired is returned unchanged with no network exchange and no cache
mutation; otherwise an exchange is performed, and when it succeeds with a
token the cache is updated to that token with expiry
now + expires_in - 300. -/
theorem c4_token_cache_behavior (now : ℚ) (resp : ExchangeOutcome)
    (cache : TokenCache) :
    (∀ t : PyStr, cache.token = some t → t ≠ [] → now < cache.expiry →
      get_access_token false now resp cache = (.ok (some t), cache, false)) ∧
    (¬ (truthy cache.token = true ∧ now < cache.expiry) →
      (get_access_token false now resp cache).2.2 = true ∧
      (∀ tok ei, resp = .ok2xx (some tok) ei → tok ≠ [] →
        get_access_token false now resp cache =
          (.ok (some tok), ⟨some tok, now + ei.getD 3600 - 300⟩, true))) := by
  constructor
  · intro t ht htne hexp
    have htr : truthy cache.token = true := by
      rw [ht]; exact (truthy_some_iff t).mpr htne
    unfold get_access_token
    rw [if_pos ⟨rfl, htr, hexp⟩, ht]
  · intro hmiss
    have hcond : ¬ (false = false ∧ truthy cache.token = true ∧
        now < cache.expiry) := fun h => hmiss ⟨h.2.1, h.2.2⟩
    constructor
    · unfold get_access_token
      rw [if_neg hcond]
      cases resp with
      | netErr => rfl
      | non2xx => rfl
      | ok2xx tok ei =>
        by_cases h : truthy tok = true
        · simp [h]
        · simp [h]
    · intro tok ei hresp htok
      subst hresp
      unfold get_access_token
      rw [if_neg hcond]
      simp only [if_pos ((truthy_some_iff tok).mpr htok)]

theorem c4_witness :
    get_access_token false 0 ExchangeOutcome.non2xx
        ⟨some (("t").toList), 1⟩ =
      (.ok (some (("t").toList)), ⟨some (("t").toList), 1⟩, false) ∧
    get_access_token false 0 (.ok2xx (some (("u").toList)) (some 3600))
        ⟨none, 0⟩ =
      (.ok (some (("u").toList)),
        ⟨some (("u").toList), (0 : ℚ) + (Option.getD (some 3600) 3600) - 300⟩,
        true) :=
  ⟨(c4_token_cache_behavior 0 ExchangeOutcome.non2xx
      ⟨some (("t").toList), 1⟩).1 (("t").toList) rfl (by decide) (by decide),
    ((c4_token_cache_behavior 0 (.ok2xx (some (("u").toList)) (some 3600))
      ⟨none, 0⟩).2 (by decide)).2 (("u").toList) (some 3600) rfl (by decide)⟩

/-- C5: make_watsonx_request performs at most 3 POSTs in total (the first
attempt plus at most maxRetries = 2 more); on a non-2xx, non-401 status it
fails immediately with that status and body, with no retry and no further
exchange; on a 401 it clears the cached credential and retries with a
forced refresh, so that even with a valid cached token the second attempt
performs a fresh exchange and the returned token replaces the cache. -/
theorem c5_retry_only_on_auth (env : WXEnv) (cache : TokenCache) (t0 : PyStr)
    (htok : cache.token = some t0) (ht0 : t0 ≠ [])
    (hexp : env.now 0 < cache.expiry) :
    (make_watsonx_request env cache).posts ≤ 3 ∧
    (∀ s body, env.wx 0 = .http s body → s ≠ 200 → s ≠ 401 →
      make_watsonx_request env cache =
        ⟨.error ⟨s, wxErrDetail body⟩, cache, 0, 1⟩) ∧
    (∀ body1 body2 t1 ei, env.wx 0 = .http 401 body1 →
      env.wx 1 = .http 200 body2 →
      env.exch 1 = .ok2xx (some t1) ei → t1 ≠ [] →
      make_watsonx_request env cache =
        ⟨.ok (some body2), ⟨some t1, env.now 1 + ei.getD 3600 - 300⟩, 1, 2⟩) := by
  have htr : truthy cache.token = true := by
    rw [htok]; exact (truthy_some_iff t0).mpr ht0
  have htr0 : truthy (some t0) = true := (truthy_some_iff t0).mpr ht0
  have hget0 : get_access_token false (env.now 0) (env.exch 0)
      cache = (.ok (some t0), cache, false) := by
    unfold get_access_token
    rw [if_pos ⟨rfl, htr, hexp⟩, htok]
  refine ⟨wxGo_posts_le env 2 3 0 cache, ?_, ?_⟩
  · intro s body hwx hs200 hs401
    show wxGo env 2 (2 + 1) 0 cache = _
    simp [wxGo, hget0, hwx, htr0, hs200, hs401]
  · intro body1 body2 t1 ei hwx0 hwx1 hexch1 ht1
    have htr1 : truthy (some t1) = true := (truthy_some_iff t1).mpr ht1
    have hget1 : get_access_token true (env.now 1) (env.exch 1)
        (⟨none, 0⟩ : TokenCache) =
        (.ok (some t1), ⟨some t1, env.now 1 + ei.getD 3600 - 300⟩, true) := by
      unfold get_access_token
      rw [if_neg (by simp), hexch1]
      simp only [if_pos htr1]
    show wxGo env 2 (2 + 1) 0 cache = _
    simp [wxGo, hget0, hwx0, htr0, hget1, hwx1, htr1]

theorem c5_witness :
    make_watsonx_request
        ⟨fun _ => ExchangeOutcome.ok2xx (some (("u").toList)) none,
          fun n => if n = 0 then WXOutcome.http 401 []
            else WXOutcome.http 200 (("b").toList),
          fun _ => 0⟩
        ⟨some (("t").toList), 1⟩ =
      ⟨.ok (some (("b").toList)),
        ⟨some (("u").toList), (0 : ℚ) + 3600 - 300⟩, 1, 2⟩ :=
  (c5_retry_only_on_auth _ _ (("t").toList) rfl (by decide) (by decide)).2.2
    [] (("b").toList) (("u").toList) none rfl rfl rfl (by decide)

/-- C6: for each of the two chunked tiers, when every chunk fails to
produce a result the operation fails with the no-transcription error, and
when the surviving list is non-empty the operation returns the
reconciliation of exactly the surviving chunks' transcripts, whose original
chunk indices are strictly increasing and each of which comes from the
chunk at its recorded index. -/
theorem c6_all_or_partial_failures (oracle : List ℚ → Option PyStr)
    (w : List ℚ) :
    ((∀ c ∈ chunkList (30 * 16000) (2 * 16000) w, segResult oracle c = none) →
      transcribe_long_audio 16000 oracle w = .error ⟨500, noSuccessMsg⟩) ∧
    ((chunkList (30 * 16000) (2 * 16000) w).filterMap (segResult oracle) ≠ [] →
      transcribe_long_audio 16000 oracle w =
        .ok (clean_combined_transcription
          ((survivorsIdx oracle (chunkList (30 * 16000) (2 * 16000) w)).map
            Prod.snd)) ∧
      List.Pairwise (fun a b => a.1 < b.1)
        (survivorsIdx oracle (chunkList (30 * 16000) (2 * 16000) w)) ∧
      ∀ q ∈ survivorsIdx oracle (chunkList (30 * 16000) (2 * 16000) w),
        ∃ c, (q.1, c) ∈ (chunkList (30 * 16000) (2 * 16000) w).enum ∧
          segResult oracle c = some q.2) ∧
    ((∀ c ∈ chunkList (20 * 16000) (1 * 16000) w, segResult oracle c = none) →
      transcribe_very_long_audio 16000 oracle w = .error ⟨500, noSuccessMsg⟩) ∧
    ((chunkList (20 * 16000) (1 * 16000) w).filterMap (segResult oracle) ≠ [] →
      transcribe_very_long_audio 16000 oracle w =
        .ok (clean_combined_transcription
          ((survivorsIdx oracle (chunkList (20 * 16000) (1 * 16000) w)).map
            Prod.snd)) ∧
      List.Pairwise (fun a b => a.1 < b.1)
        (survivorsIdx oracle (chunkList (20 * 16000) (1 * 16000) w)) ∧
      ∀ q ∈ survivorsIdx oracle (chunkList (20 * 16000) (1 * 16000) w),
        ∃ c, (q.1, c) ∈ (chunkList (20 * 16000) (1 * 16000) w).enum ∧
          segResult oracle c = some q.2) :=
  ⟨fun h => chunked_all_fail _ _ oracle w h,
    fun h => ⟨chunked_survivors _ _ oracle w h, survivorsIdx_fst_mono oracle _,
      survivorsIdx_mem oracle _⟩,
    fun h => chunked_all_fail _ _ oracle w h,
    fun h => ⟨chunked_survivors _ _ oracle w h, survivorsIdx_fst_mono oracle _,
      survivorsIdx_mem oracle _⟩⟩

theorem c6_witness :
    transcribe_long_audio 16000 (fun _ => none) [(0 : ℚ)] =
      .error ⟨500, noSuccessMsg⟩ ∧
    transcribe_very_long_audio 16000 (fun _ => some (("hi").toList))
        [(0 : ℚ)] =
      .ok (clean_combined_transcription
        ((survivorsIdx (fun _ => some (("hi").toList))
          (chunkList (20 * 16000) (1 * 16000) [(0 : ℚ)])).map Prod.snd)) :=
  ⟨(c6_all_or_partial_failures (fun _ => none) [(0 : ℚ)]).1 (fun _ _ => rfl),
    ((c6_all_or_partial_failures (fun _ => some (("hi").toList))
      [(0 : ℚ)]).2.2.2 (by decide)).1⟩

/-- C7 counterexample: on a 2xx exchange response with no token field,
get_access_token does not fail with an error: it returns None (ok none)
and leaves the cache unchanged, so the claim that it fails with a
CredentialAcquisitionError is false at this input. -/
theorem c7_counterexample :
    get_access_token true 0 (.ok2xx none none) ⟨none, 0⟩ =
      (.ok none, ⟨none, 0⟩, true) ∧
    ∀ e : Unit,
      (get_access_token true 0 (.ok2xx none none) ⟨none, 0⟩).1 ≠ .error e := by
  refine ⟨rfl, ?_⟩
  intro e h
  have h2 : (Except.ok none : Except Unit (Option PyStr)) = .error e := h
  exact Except.noConfusion h2

/-- C7 amended: when the cache check does not hit, a 2xx exchange response
with no token field makes get_access_token return None without raising and
without touching the cache, and a non-2xx response or a network error makes
it raise with the cache likewise unchanged. -/
theorem c7_amended_failures_leave_cache (force : Bool) (now : ℚ)
    (cache : TokenCache)
    (hmiss : ¬ (force = false ∧ truthy cache.token = true ∧
      now < cache.expiry)) :
    (∀ ei, get_access_token force now (.ok2xx none ei) cache =
      (.ok none, cache, true)) ∧
    get_access_token force now .non2xx cache = (.error (), cache, true) ∧
    get_access_token force now .netErr cache = (.error (), cache, true) := by
  refine ⟨?_, ?_, ?_⟩
  · intro ei
    unfold get_access_token
    rw [if_neg hmiss]
    rfl
  · unfold get_access_token
    rw [if_neg hmiss]
  · unfold get_access_token
    rw [if_neg hmiss]

theorem c7_witness :
    get_access_token true 0 (.ok2xx none (some 7)) ⟨some (("t").toList), 1⟩ =
      (.ok none, ⟨some (("t").toList), 1⟩, true) :=
  (c7_amended_failures_leave_cache true 0 ⟨some (("t").toList), 1⟩
    (by decide)).1 (some 7)

/-- C8: in the full-analysis pipeline, a transcription failure means
neither the intent call nor the resolution call is attempted, and an
intent-call failure means the resolution call is not attempted. -/
theorem c8_short_circuit (filename : PyStr) (apiKey : Option PyStr)
    (size : Nat) (decode : Except Unit (List ℚ))
    (oracle : List ℚ → Option PyStr)
    (intentCall : PyStr → Except HTTPError PyStr)
    (resolCall : PyStr → PyStr → Except HTTPError PyStr) :
    (∀ e, (transcribe_audio_file_model size decode oracle).1 = .error e →
      (full_analysis_endpoint filename apiKey size decode oracle intentCall
        resolCall).2.2 = (false, false)) ∧
    (∀ t e, (transcribe_audio_file_model size decode oracle).1 = .ok t →
      intentCall t = .error e →
      (full_analysis_endpoint filename apiKey size decode oracle intentCall
        resolCall).2.2.2 = false) := by
  unfold full_analysis_endpoint
  by_cases hmp3 : pyEndsWith (pyLower filename) ((".mp3").toList) = false
  · rw [if_pos hmp3]
    exact ⟨fun _ _ => rfl, fun _ _ _ _ => rfl⟩
  · rw [if_neg hmp3]
    by_cases hkey : truthy apiKey = false
    · rw [if_pos hkey]
      exact ⟨fun _ _ => rfl, fun _ _ _ _ => rfl⟩
    · rw [if_neg hkey]
      cases htr : transcribe_audio_file_model size decode oracle with
      | mk res tr =>
        constructor
        · intro e he
          have he2 : res = Except.error e := he
          subst he2
          rfl
        · intro t e he hint
          have he2 : res = Except.ok t := he
          subst he2
          simp only [hint]

theorem c8_witness :
    (full_analysis_endpoint (("a.mp3").toList) (some (("k").toList)) 0
        (.error ()) (fun _ => none) (fun _ => .ok []) (fun _ _ => .ok [])).2.2 =
      (false, false) :=
  (c8_short_circuit (("a.mp3").toList) (some (("k").toList)) 0 (.error ())
    (fun _ => none) (fun _ => .ok []) (fun _ _ => .ok [])).1
    ⟨500, ("Error preprocessing audio").toList⟩ rfl

/-- C9 counterexample: the reconciler applied to the non-empty sequence
holding the single non-empty transcript consisting of a space followed by
the letter a returns that string unchanged, which still has leading
whitespace, so the claim that the merged string of every non-empty sequence
of non-empty transcripts is trim-free is false at this input. -/
theorem c9_counterexample :
    ([(" a").toList] : List PyStr) ≠ [] ∧
    (∀ t ∈ ([(" a").toList] : List PyStr), t ≠ []) ∧
    strip (clean_combined_transcription [(" a").toList]) ≠
      clean_combined_transcription [(" a").toList] := by decide

/-- C9 amended: for every non-empty sequence of non-empty transcript
strings that are themselves free of leading and trailing whitespace, the
merged string returned by the reconciler has no leading or trailing
whitespace.  (A singleton input is returned verbatim, so the guarantee
needs the inputs to be pre-trimmed, which the transcription worker ensures
by stripping every chunk transcript.) -/
theorem c9_amended_trim (ts : List PyStr) (hne : ts ≠ [])
    (hel : ∀ t ∈ ts, t ≠ [] ∧ strip t = t) :
    strip (clean_combined_transcription ts) = clean_combined_transcription ts := by
  match ts with
  | [] => exact absurd rfl hne
  | [t] =>
    have h := (hel t (by simp)).2
    simpa [clean_combined_transcription] using h
  | t :: t2 :: rest =>
    show strip (strip ((t2 :: rest).foldl mergeStep t)) = _
    rw [strip_idem]
    rfl

theorem c9_witness :
    strip (clean_combined_transcription [("ab").toList]) =
      clean_combined_transcription [("ab").toList] :=
  c9_amended_trim [("ab").toList] (by decide) (by decide)

/-- C10: an upload whose filename does not end, case-insensitively, in
.mp3 is rejected by the /transcribe and /analyze endpoints with HTTP 400
and the only-MP3 message, before the size check, the decode, the model, or
either downstream call runs. -/
theorem c10_mp3_gate (filename : PyStr) (apiKey : Option PyStr) (size : Nat)
    (decode : Except Unit (List ℚ)) (oracle : List ℚ → Option PyStr)
    (intentCall : PyStr → Except HTTPError PyStr)
    (resolCall : PyStr → PyStr → Except HTTPError PyStr)
    (h : pyEndsWith (pyLower filename) ((".mp3").toList) = false) :
    transcribe_audio_endpoint filename size decode oracle =
      (.error ⟨400, onlyMp3Msg⟩, ⟨false, false, false⟩) ∧
    full_analysis_endpoint filename apiKey size decode oracle intentCall
        resolCall =
      (.error ⟨400, onlyMp3Msg⟩, ⟨false, false, false⟩, false, false) := by
  constructor
  · unfold transcribe_audio_endpoint
    rw [if_pos h]
  · unfold full_analysis_endpoint
    rw [if_pos h]

theorem c10_witness :
    transcribe_audio_endpoint (("a.wav").toList) 0 (.error ())
        (fun _ => none) =
      (.error ⟨400, onlyMp3Msg⟩, ⟨false, false, false⟩) :=
  (c10_mp3_gate (("a.wav").toList) none 0 (.error ()) (fun _ => none)
    (fun _ => .ok []) (fun _ _ => .ok []) (by decide)).1
